import Mathlib

/-!
Verification development for the model-run orchestration service.

The definitions below are a shallow embedding of the repository's
Python source: the run-store rows and the conditional-update (CAS)
operations of `src/worker/loader.py` and `src/worker/main.py`, the
admission endpoint of `src/api/runs.py`, and the canonicalizer of
`src/utils.py`.  Timestamps are modelled as natural numbers (seconds),
SQL `NULL` as `Option.none`, and each SQL conditional `UPDATE ... WHERE
... RETURNING` as a pure function from the targeted row to
`Bool × row` (whether a row matched, and the row afterwards).
-/

namespace Orchestration

/-- JSON-like parameter values (Python dict values).  Numbers are
modelled as integers; Python dicts become association lists whose keys
are distinct. -/
inductive Jval where
  | jnull
  | jbool (b : Bool)
  | jnum (n : Int)
  | jstr (s : String)
  | jarr (elems : List Jval)
  | jobj (entries : List (String × Jval))
deriving Repr

/-- The run lifecycle states, from `src/infrastructure/models.py`
(`class RunStatus`). -/
inductive RunStatus where
  | PENDING
  | RUNNING
  | SUCCEEDED
  | FAILED
  | CANCELLED
deriving DecidableEq, Repr

/-- A row of the `model_runs` table, from `src/infrastructure/models.py`
(`class ModelRun`).  Timestamps are `Nat` seconds, nullable columns are
`Option`, and the `JSONB` column `parameters` is an association list of
`Jval` values. -/
structure RunRow where
  id : Nat
  status : RunStatus
  parameters : List (String × Jval)
  payload_hash : String
  created_at : Nat
  started_at : Option Nat
  finished_at : Option Nat
  attempt_count : Nat
  lease_owner : Option String
  lease_expires_at : Option Nat
  result_ref : Option String
  last_error : Option String
deriving Repr

/-- `LEASE_DURATION_SECONDS` from `src/worker/loader.py`. -/
def LEASE_DURATION_SECONDS : Nat := 60

/-- SQL semantics of `ModelRun.lease_expires_at < now`: a comparison
against `NULL` is not satisfied. -/
def lease_expired (r : RunRow) (now : Nat) : Bool :=
  match r.lease_expires_at with
  | some e => decide (e < now)
  | none => false

/-- Embeds `acquire_lease` of `src/worker/loader.py` (lines 38-57): the
conditional `UPDATE` matching `status = PENDING OR (status = RUNNING AND
lease_expires_at < now)`, setting `status = RUNNING`,
`lease_owner = worker_id`, `lease_expires_at = now + 60`,
`started_at = coalesce(started_at, now)`,
`attempt_count = attempt_count + 1`.  Returns whether a row was updated
(the Python function's boolean result) together with the row afterwards. -/
def try_acquire_lease (r : RunRow) (worker_id : String) (now : Nat) :
    Bool × RunRow :=
  if r.status = RunStatus.PENDING ∨
      (r.status = RunStatus.RUNNING ∧ lease_expired r now) then
    (true,
      { r with
        status := RunStatus.RUNNING
        lease_owner := some worker_id
        lease_expires_at := some (now + LEASE_DURATION_SECONDS)
        started_at := some (r.started_at.getD now)
        attempt_count := r.attempt_count + 1 })
  else
    (false, r)

/-- Embeds `renew_lease` of `src/worker/loader.py` (lines 97-105): the
conditional `UPDATE` whose only condition besides the id is
`lease_owner = worker_id`, setting `lease_expires_at = now + 60`. -/
def try_renew_lease (r : RunRow) (worker_id : String) (now : Nat) :
    Bool × RunRow :=
  if r.lease_owner = some worker_id then
    (true, { r with lease_expires_at := some (now + LEASE_DURATION_SECONDS) })
  else
    (false, r)

/-- Embeds the success-finalization `UPDATE` of `execute_run` in
`src/worker/main.py` (lines 96-107): conditional on
`lease_owner = worker_id`, sets `status = SUCCEEDED`, `result_ref`,
`finished_at = now`. -/
def finalize_success (r : RunRow) (worker_id : String)
    (ref : String) (now : Nat) : Bool × RunRow :=
  if r.lease_owner = some worker_id then
    (true,
      { r with
        status := RunStatus.SUCCEEDED
        result_ref := some ref
        finished_at := some now })
  else
    (false, r)

/-- Embeds the failure-finalization `UPDATE` of `execute_run` in
`src/worker/main.py` (lines 117-127): its `WHERE` clause matches on the
run id alone — there is no `lease_owner` condition — and it sets
`status = FAILED`, `last_error`, `finished_at = now` unconditionally on
the targeted row. -/
def finalize_failure (r : RunRow) (err : String) (now : Nat) : RunRow :=
  { r with
    status := RunStatus.FAILED
    last_error := some err
    finished_at := some now }

/-- A sequential trace of atomic `acquire_lease` attempts against one
run row: each list element is `(worker_id, now)`.  Returns the final row
and the number of attempts that returned `true`.  This models an
interleaving of concurrent workers, each attempt being the single
atomic conditional `UPDATE` of `src/worker/loader.py`. -/
def runAttempts (r : RunRow) : List (String × Nat) → RunRow × Nat
  | [] => (r, 0)
  | (w, t) :: rest =>
      let step := try_acquire_lease r w t
      let tail := runAttempts step.2 rest
      (tail.1, (if step.1 then 1 else 0) + tail.2)

/-- Embeds `renew_lease` of `src/worker/loader.py` together with its
`except Exception` handler (lines 92-127): the store interaction is the
`Except`-valued argument; a raised store exception (`Except.error`) is
caught, the session rolled back, and `False` returned.  The row is the
one targeted by the `UPDATE` when the store works. -/
def renew_lease (st : Except String RunRow) (worker_id : String)
    (now : Nat) : Bool × Except String RunRow :=
  match st with
  | Except.error e => (false, Except.error e)
  | Except.ok r =>
      let step := try_renew_lease r worker_id now
      (step.1, Except.ok step.2)

/-- Embeds `acquire_lease` of `src/worker/loader.py` together with its
`except Exception` handler (lines 29-81): a raised store exception is
rolled back and re-raised (`raise` on line 79), so the caller receives
the error rather than a boolean. -/
def acquire_lease (st : Except String RunRow) (worker_id : String)
    (now : Nat) : Except String (Bool × RunRow) :=
  match st with
  | Except.error e => Except.error e
  | Except.ok r => Except.ok (try_acquire_lease r worker_id now)

/-- One tick of `HeartbeatThread.run` in `src/worker/main.py` (lines
31-41): invoke `renew_lease`; the thread keeps renewing exactly when the
call returned `True` (on `False` it breaks out of the loop). -/
def heartbeat_keeps_running (st : Except String RunRow)
    (worker_id : String) (now : Nat) : Bool :=
  (renew_lease st worker_id now).1

/-! ### Canonicalizer (`src/utils.py`)

`canonicalize_params` is `json.dumps(params, sort_keys=True,
separators=(',', ':'))` followed by `hashlib.sha256(...).hexdigest()`.
JSON values are modelled by `Jval` (numbers as integers), Python dicts
by association lists with distinct keys, and the SHA-256 digest is
implemented below over `Nat` words reduced mod `2^32`. -/

/-- Lowercase hexadecimal digit, as used by `hexdigest` and by
`json.dumps` unicode escapes. -/
def hexDigit (n : Nat) : Char :=
  "0123456789abcdef".data.getD n '0'

/-- Four lowercase hex digits (big-endian) of a value below `2^16`. -/
def hex4 (n : Nat) : String :=
  String.mk [hexDigit (n / 4096 % 16), hexDigit (n / 256 % 16),
    hexDigit (n / 16 % 16), hexDigit (n % 16)]

/-- Right rotation of a 32-bit word represented as a `Nat`. -/
def rotr (n x : Nat) : Nat :=
  ((x >>> n) ||| (x <<< (32 - n))) % 4294967296

/-- The 64 SHA-256 round constants of FIPS 180-4, written in decimal. -/
def K256 : List Nat :=
  [1116352408, 1899447441, 3049323471, 3921009573,
   961987163, 1508970993, 2453635748, 2870763221,
   3624381080, 310598401, 607225278, 1426881987,
   1925078388, 2162078206, 2614888103, 3248222580,
   3835390401, 4022224774, 264347078, 604807628,
   770255983, 1249150122, 1555081692, 1996064986,
   2554220882, 2821834349, 2952996808, 3210313671,
   3336571891, 3584528711, 113926993, 338241895,
   666307205, 773529912, 1294757372, 1396182291,
   1695183700, 1986661051, 2177026350, 2456956037,
   2730485921, 2820302411, 3259730800, 3345764771,
   3516065817, 3600352804, 4094571909, 275423344,
   430227734, 506948616, 659060556, 883997877,
   958139571, 1322822218, 1537002063, 1747873779,
   1955562222, 2024104815, 2227730452, 2361852424,
   2428436474, 2756734187, 3204031479, 3329325298]

/-- The SHA-256 initial hash state of FIPS 180-4, written in decimal. -/
def H256init : List Nat :=
  [1779033703, 3144134277, 1013904242, 2773480762,
   1359893119, 2600822924, 528734635, 1541459225]

/-- SHA-256 message padding of a byte list: append `0x80`, zero bytes up
to 56 mod 64, then the bit length as 8 big-endian bytes. -/
def sha256pad (msg : List Nat) : List Nat :=
  let r := msg.length % 64
  let k := if r ≤ 55 then 55 - r else 119 - r
  let ml := msg.length * 8
  msg ++ 0x80 :: List.replicate k 0 ++
    [ml >>> 56 % 256, ml >>> 48 % 256, ml >>> 40 % 256, ml >>> 32 % 256,
     ml >>> 24 % 256, ml >>> 16 % 256, ml >>> 8 % 256, ml % 256]

/-- Split a byte list into 64-byte chunks; the first argument is
recursion fuel, in `chunksOf64` the list length (the list shrinks by at
least one element per step). -/
def chunksOf64Fuel : Nat → List Nat → List (List Nat)
  | _, [] => []
  | 0, l => [l]
  | fuel + 1, l => l.take 64 :: chunksOf64Fuel fuel (l.drop 64)

/-- Split a byte list into 64-byte chunks. -/
def chunksOf64 (l : List Nat) : List (List Nat) :=
  chunksOf64Fuel l.length l

/-- Big-endian 32-bit word from four bytes of a chunk. -/
def wordAt (chunk : List Nat) (i : Nat) : Nat :=
  chunk.getD (4 * i) 0 * 16777216 + chunk.getD (4 * i + 1) 0 * 65536 +
    chunk.getD (4 * i + 2) 0 * 256 + chunk.getD (4 * i + 3) 0

/-- One message-schedule extension step: append
`w[n-16] + s0(w[n-15]) + w[n-7] + s1(w[n-2])` mod `2^32`. -/
def stepW (w : List Nat) : List Nat :=
  let n := w.length
  let x15 := w.getD (n - 15) 0
  let x2 := w.getD (n - 2) 0
  let s0 := rotr 7 x15 ^^^ rotr 18 x15 ^^^ (x15 >>> 3)
  let s1 := rotr 17 x2 ^^^ rotr 19 x2 ^^^ (x2 >>> 10)
  w ++ [(w.getD (n - 16) 0 + s0 + w.getD (n - 7) 0 + s1) % 4294967296]

/-- The 64-word SHA-256 message schedule of one chunk. -/
def schedule (chunk : List Nat) : List Nat :=
  (List.range 48).foldl (fun w _ => stepW w)
    ((List.range 16).map (wordAt chunk))

/-- One SHA-256 compression round on the state `[a,b,c,d,e,f,g,h]` with
round constant and schedule word `kw`. -/
def compressRound (st : List Nat) (kw : Nat × Nat) : List Nat :=
  match st with
  | [a, b, c, d, e, f, g, h] =>
      let S1 := rotr 6 e ^^^ rotr 11 e ^^^ rotr 25 e
      let ch := (e &&& f) ^^^ ((e ^^^ 4294967295) &&& g)
      let temp1 := (h + S1 + ch + kw.1 + kw.2) % 4294967296
      let S0 := rotr 2 a ^^^ rotr 13 a ^^^ rotr 22 a
      let maj := (a &&& b) ^^^ (a &&& c) ^^^ (b &&& c)
      let temp2 := (S0 + maj) % 4294967296
      [(temp1 + temp2) % 4294967296, a, b, c,
        (d + temp1) % 4294967296, e, f, g]
  | _ => st

/-- SHA-256 compression of one 64-byte chunk into the hash state. -/
def compressChunk (h : List Nat) (chunk : List Nat) : List Nat :=
  let st := (K256.zip (schedule chunk)).foldl compressRound h
  (h.zip st).map (fun p => (p.1 + p.2) % 4294967296)

/-- SHA-256 digest of a byte list, as eight 32-bit words. -/
def sha256 (msg : List Nat) : List Nat :=
  (chunksOf64 (sha256pad msg)).foldl compressChunk H256init

/-- Eight lowercase hex digits (big-endian) of a 32-bit word. -/
def wordToHex (w : Nat) : String :=
  String.mk ((List.range 8).map (fun i => hexDigit (w >>> ((7 - i) * 4) % 16)))

/-- UTF-8 encoding of one code point, as byte values. -/
def utf8EncodeCharNat (n : Nat) : List Nat :=
  if n < 0x80 then [n]
  else if n < 0x800 then [0xC0 ||| (n >>> 6), 0x80 ||| (n &&& 0x3F)]
  else if n < 0x10000 then
    [0xE0 ||| (n >>> 12), 0x80 ||| ((n >>> 6) &&& 0x3F), 0x80 ||| (n &&& 0x3F)]
  else
    [0xF0 ||| (n >>> 18), 0x80 ||| ((n >>> 12) &&& 0x3F),
     0x80 ||| ((n >>> 6) &&& 0x3F), 0x80 ||| (n &&& 0x3F)]

/-- `s.encode('utf-8')` as a byte list. -/
def utf8Bytes (s : String) : List Nat :=
  (s.data.map (fun c => utf8EncodeCharNat c.toNat)).flatten

/-- `hashlib.sha256(s.encode('utf-8')).hexdigest()`. -/
def sha256hex (s : String) : String :=
  String.join ((sha256 (utf8Bytes s)).map wordToHex)

/-- `json.dumps` escaping of one character (default `ensure_ascii`):
quote, backslash and control characters get two-character escapes or
`\uXXXX`; printable ASCII is kept; all other code points are emitted as
`\uXXXX` (a surrogate pair beyond the BMP). -/
def escapeChar (c : Char) : String :=
  if c = '"' then "\\\""
  else if c = '\\' then "\\\\"
  else if c = '\n' then "\\n"
  else if c = '\r' then "\\r"
  else if c = '\t' then "\\t"
  else if c = '\x08' then "\\b"
  else if c = '\x0c' then "\\f"
  else if 0x20 ≤ c.toNat ∧ c.toNat ≤ 0x7e then String.singleton c
  else if c.toNat < 0x10000 then "\\u" ++ hex4 c.toNat
  else
    let v := c.toNat - 0x10000
    "\\u" ++ hex4 (0xd800 + v / 0x400) ++ "\\u" ++ hex4 (0xdc00 + v % 0x400)

/-- A JSON string literal: escaped content between double quotes. -/
def jsonQuote (s : String) : String :=
  "\"" ++ String.join (s.data.map escapeChar) ++ "\""

/-- Lexicographic code-point order on character lists: Python's string
comparison, used by `sorted` under `sort_keys=True`. -/
def charListLE : List Char → List Char → Bool
  | [], _ => true
  | _ :: _, [] => false
  | a :: as, b :: bs =>
      if a.toNat < b.toNat then true
      else if b.toNat < a.toNat then false
      else charListLE as bs

/-- Python's `<=` on strings: lexicographic by code point. -/
def strLE (a b : String) : Prop := charListLE a.data b.data = true

instance : DecidableRel strLE := fun a b =>
  inferInstanceAs (Decidable (charListLE a.data b.data = true))

/-- Order on object entries used by `sort_keys=True`: compare keys. -/
def entryLE (p q : String × Jval) : Prop := strLE p.1 q.1

instance : DecidableRel entryLE := fun p q =>
  inferInstanceAs (Decidable (strLE p.1 q.1))

mutual

/-- Recursively sort every object's entries by key, as
`json.dumps(..., sort_keys=True)` does at every nesting level. -/
def sortJ : Jval → Jval
  | Jval.jnull => Jval.jnull
  | Jval.jbool b => Jval.jbool b
  | Jval.jnum n => Jval.jnum n
  | Jval.jstr s => Jval.jstr s
  | Jval.jarr xs => Jval.jarr (sortJList xs)
  | Jval.jobj es => Jval.jobj (List.insertionSort entryLE (sortJEntries es))

/-- `sortJ` mapped over array elements. -/
def sortJList : List Jval → List Jval
  | [] => []
  | x :: xs => sortJ x :: sortJList xs

/-- `sortJ` mapped over object entry values. -/
def sortJEntries : List (String × Jval) → List (String × Jval)
  | [] => []
  | (k, v) :: es => (k, sortJ v) :: sortJEntries es

end

mutual

/-- Minified JSON serialization with separators `','` and `':'` (no
whitespace), as `json.dumps(..., separators=(',', ':'))`.  Key order is
emission order: `canonicalize_params` sorts first via `sortJ`. -/
def serialize : Jval → String
  | Jval.jnull => "null"
  | Jval.jbool true => "true"
  | Jval.jbool false => "false"
  | Jval.jnum n => toString n
  | Jval.jstr s => jsonQuote s
  | Jval.jarr xs => "[" ++ serializeList xs ++ "]"
  | Jval.jobj es => "\x7b" ++ serializeEntries es ++ "\x7d"

/-- Comma-joined serialization of array elements. -/
def serializeList : List Jval → String
  | [] => ""
  | [x] => serialize x
  | x :: y :: xs => serialize x ++ "," ++ serializeList (y :: xs)

/-- Comma-joined serialization of object entries as `"key":value`. -/
def serializeEntries : List (String × Jval) → String
  | [] => ""
  | [(k, v)] => jsonQuote k ++ ":" ++ serialize v
  | (k, v) :: e :: es =>
      jsonQuote k ++ ":" ++ serialize v ++ "," ++ serializeEntries (e :: es)

end

/-- Embeds `canonicalize_params` of `src/utils.py`: the canonical JSON
string (`json.dumps(params, sort_keys=True, separators=(',', ':'))`)
paired with its SHA-256 hex digest. -/
def canonicalize_params (params : List (String × Jval)) : String × String :=
  let canonical := serialize (sortJ (Jval.jobj params))
  (canonical, sha256hex canonical)

mutual

/-- A value is another's key-permutation when they agree except that
objects may present their entries in a different order; the relation is
applied recursively to array elements and entry values. -/
def KeyPerm : Jval → Jval → Prop
  | Jval.jarr xs, Jval.jarr ys => KeyPermList xs ys
  | Jval.jobj es, Jval.jobj fs =>
      ∃ gs : List (String × Jval), KeyPermEntries es gs ∧ gs.Perm fs
  | x, y => x = y

/-- Pointwise `KeyPerm` on array elements. -/
def KeyPermList : List Jval → List Jval → Prop
  | [], [] => True
  | x :: xs, y :: ys => KeyPerm x y ∧ KeyPermList xs ys
  | _, _ => False

/-- Pointwise equality of keys and `KeyPerm` of values on entry lists. -/
def KeyPermEntries :
    List (String × Jval) → List (String × Jval) → Prop
  | [], [] => True
  | (k, v) :: es, (k', v') :: fs =>
      k = k' ∧ KeyPerm v v' ∧ KeyPermEntries es fs
  | _, _ => False

end

mutual

/-- Every object in the value has pairwise-distinct keys, as a Python
dict does. -/
def NodupKeys : Jval → Prop
  | Jval.jarr xs => NodupKeysList xs
  | Jval.jobj es => (es.map Prod.fst).Nodup ∧ NodupKeysEntries es
  | _ => True

/-- `NodupKeys` over array elements. -/
def NodupKeysList : List Jval → Prop
  | [] => True
  | x :: xs => NodupKeys x ∧ NodupKeysList xs

/-- `NodupKeys` over entry values. -/
def NodupKeysEntries : List (String × Jval) → Prop
  | [] => True
  | (_, v) :: es => NodupKeys v ∧ NodupKeysEntries es

end

/-! ### Admission service (`src/api/runs.py`) -/

/-- A validated `POST /runs` request: the `parameters` body field and
the optional `Idempotency-Key` header. -/
structure Request where
  parameters : List (String × Jval)
  idemKey : Option String

/-- The response body of `_serialize_run` in `src/api/runs.py`. -/
structure SerializedRun where
  id : Nat
  status : RunStatus
  created_at : Nat
  parameters : List (String × Jval)
  started_at : Option Nat
  finished_at : Option Nat
  attempt_count : Nat
deriving Repr

/-- Embeds `_serialize_run` of `src/api/runs.py`. -/
def serialize_run (r : RunRow) : SerializedRun :=
  { id := r.id, status := r.status, created_at := r.created_at,
    parameters := r.parameters, started_at := r.started_at,
    finished_at := r.finished_at, attempt_count := r.attempt_count }

/-- The store visible to the admission service: the `model_runs` table
and the `idempotency_keys` table (`key → run_id`), each as a list in
the database's result order. -/
structure DBState where
  runs : List RunRow
  keys : List (String × Nat)

/-- An HTTP response of the admission endpoint: a serialized run with
its status code, or an error body with its status code. -/
inductive ApiResult where
  | ok (code : Nat) (body : SerializedRun)
  | err (code : Nat) (msg : String)
deriving Repr

/-- The `IdempotencyKey` lookup of `create_run` (step 2):
`select(IdempotencyKey).where(IdempotencyKey.key == header)`. -/
def find_by_key (db : DBState) (k : String) : Option Nat :=
  (db.keys.find? (fun p => decide (p.1 = k))).map Prod.snd

/-- `db.get(ModelRun, run_id)`. -/
def get_run (db : DBState) (i : Nat) : Option RunRow :=
  db.runs.find? (fun r => decide (r.id = i))

/-- The active-duplicate lookup of `create_run` (step 3, lines 56-61):
`db.scalar(select(ModelRun).where(payload_hash == hash, status.in_([
PENDING, RUNNING])))`.  The `SELECT` carries no `ORDER BY`, so it yields
the first matching row in the store's result order, here the order of
`db.runs`. -/
def find_active_by_hash (db : DBState) (h : String) : Option RunRow :=
  db.runs.find? (fun r =>
    decide (r.payload_hash = h) &&
      decide (r.status = RunStatus.PENDING ∨ r.status = RunStatus.RUNNING))

/-- Embeds `create_run` of `src/api/runs.py` after validation (lines
37-103).  `newId` and `now` are the id and `created_at` the store
assigns to a newly inserted run.

Modelled from the spec: the `IdempotencyKey` SQLAlchemy model is
imported by `src/api/runs.py` but its class definition is not under
`src/`; per the spec the `idempotency_keys` table has `key PRIMARY
KEY`, so committing a binding whose key a concurrent request bound
first raises `IntegrityError`.  The `conflict` argument is that
interleaving choice: `true` means a concurrent request bound the same
key between this handler's lookup and its commit.  The handler catches
the `IntegrityError`, rolls back (leaving `db` unchanged), and returns
the 409 error body (lines 95-99). -/
def create_run (req : Request) (db : DBState) (conflict : Bool)
    (newId now : Nat) : ApiResult × DBState :=
  let payload_hash := (canonicalize_params req.parameters).2
  let keyHit : Option (ApiResult × DBState) :=
    match req.idemKey with
    | some k =>
        match find_by_key db k with
        | some rid =>
            match get_run db rid with
            | some run => some (ApiResult.ok 200 (serialize_run run), db)
            | none =>
                some (ApiResult.err 500
                  "Idempotency key maps to non-existent run", db)
        | none => none
    | none => none
  match keyHit with
  | some res => res
  | none =>
      match find_active_by_hash db payload_hash with
      | some dup => (ApiResult.ok 200 (serialize_run dup), db)
      | none =>
          let newRun : RunRow :=
            { id := newId, status := RunStatus.PENDING,
              parameters := req.parameters, payload_hash := payload_hash,
              created_at := now, started_at := none, finished_at := none,
              attempt_count := 0, lease_owner := none,
              lease_expires_at := none, result_ref := none,
              last_error := none }
          if req.idemKey.isSome && conflict then
            (ApiResult.err 409 "Conflict during creation", db)
          else
            let newKeys :=
              match req.idemKey with
              | some k => db.keys ++ [(k, newId)]
              | none => db.keys
            (ApiResult.ok 201 (serialize_run newRun),
              { runs := db.runs ++ [newRun], keys := newKeys })

/-! ### Concrete instances used by counterexamples and witnesses -/

/-- A freshly inserted PENDING run row. -/
def exRowPending : RunRow :=
  { id := 1, status := RunStatus.PENDING, parameters := [],
    payload_hash := "h", created_at := 0, started_at := none,
    finished_at := none, attempt_count := 0, lease_owner := none,
    lease_expires_at := none, result_ref := none, last_error := none }

/-- A run that reached the terminal state SUCCEEDED at time 100 and
whose `lease_owner` column still names the worker that finished it (no
update clears the column). -/
def exRowTerminal : RunRow :=
  { exRowPending with
    status := RunStatus.SUCCEEDED, lease_owner := some "w1",
    lease_expires_at := some 50, started_at := some 1,
    finished_at := some 100, attempt_count := 1,
    result_ref := some "/tmp/model_runs/1.json" }

/-- A RUNNING run currently leased by `workerB`. -/
def exRowOwnedByB : RunRow :=
  { exRowPending with
    status := RunStatus.RUNNING, lease_owner := some "workerB",
    lease_expires_at := some 500, started_at := some 10,
    attempt_count := 2 }

/-- An active run with `payload_hash = "h"` inserted first but created
later (`created_at = 10`). -/
def exRunLate : RunRow := { exRowPending with id := 1, created_at := 10 }

/-- An active run with the same `payload_hash = "h"`, created earlier
(`created_at = 5`) but appearing after `exRunLate` in the store's
result order. -/
def exRunEarly : RunRow := { exRowPending with id := 2, created_at := 5 }

/-- A store holding two active duplicates of the same payload hash,
the later-created one first in result order. -/
def exDbDup : DBState := { runs := [exRunLate, exRunEarly], keys := [] }

/-- A run bound to idempotency key `"K"`. -/
def exRunBound : RunRow :=
  { exRowPending with id := 3, payload_hash := "hash-of-original" }

/-- A store where key `"K"` is bound to `exRunBound`. -/
def exDbBound : DBState := { runs := [exRunBound], keys := [("K", 3)] }

/-- The empty store. -/
def exDbEmpty : DBState := { runs := [], keys := [] }

/-! ## Theorems -/

/-- The SQL predicate `lease_expires_at < now` holds exactly when the
column is non-NULL and its value is before `now`. -/
theorem lease_expired_iff (r : RunRow) (now : Nat) :
    lease_expired r now = true ↔
      ∃ e, r.lease_expires_at = some e ∧ e < now := by
  rcases hr : r.lease_expires_at with _ | e <;> simp [lease_expired, hr]

/-- The positive branch of the `acquire_lease` conditional update. -/
theorem try_acquire_lease_pos {r : RunRow} {w : String} {now : Nat}
    (hc : r.status = RunStatus.PENDING ∨
      (r.status = RunStatus.RUNNING ∧ lease_expired r now = true)) :
    try_acquire_lease r w now =
      (true,
        { r with
          status := RunStatus.RUNNING
          lease_owner := some w
          lease_expires_at := some (now + LEASE_DURATION_SECONDS)
          started_at := some (r.started_at.getD now)
          attempt_count := r.attempt_count + 1 }) := by
  unfold try_acquire_lease
  rw [if_pos hc]

/-- The negative branch of the `acquire_lease` conditional update. -/
theorem try_acquire_lease_neg {r : RunRow} {w : String} {now : Nat}
    (hc : ¬(r.status = RunStatus.PENDING ∨
      (r.status = RunStatus.RUNNING ∧ lease_expired r now = true))) :
    try_acquire_lease r w now = (false, r) := by
  unfold try_acquire_lease
  rw [if_neg hc]

/-- C2: `acquire_lease(run_id, worker_id)` returns true iff the row is
PENDING, or RUNNING with `lease_expires_at < now`; on success the row
afterwards is RUNNING, leased to the worker until `now + 60`, with
`started_at` kept if set and otherwise set to `now`, and
`attempt_count` incremented by exactly 1; on failure the row is
unchanged. -/
theorem try_acquire_lease_spec (r : RunRow) (w : String) (now : Nat) :
    ((try_acquire_lease r w now).1 = true ↔
      r.status = RunStatus.PENDING ∨
        (r.status = RunStatus.RUNNING ∧
          ∃ e, r.lease_expires_at = some e ∧ e < now)) ∧
    ((try_acquire_lease r w now).1 = true →
      (try_acquire_lease r w now).2.status = RunStatus.RUNNING ∧
      (try_acquire_lease r w now).2.lease_owner = some w ∧
      (try_acquire_lease r w now).2.lease_expires_at = some (now + 60) ∧
      (∀ s, r.started_at = some s →
        (try_acquire_lease r w now).2.started_at = some s) ∧
      (r.started_at = none →
        (try_acquire_lease r w now).2.started_at = some now) ∧
      (try_acquire_lease r w now).2.attempt_count = r.attempt_count + 1) ∧
    ((try_acquire_lease r w now).1 = false →
      (try_acquire_lease r w now).2 = r) := by
  have hexp := lease_expired_iff r now
  by_cases hc : r.status = RunStatus.PENDING ∨
      (r.status = RunStatus.RUNNING ∧ lease_expired r now = true)
  · rw [try_acquire_lease_pos hc]
    refine ⟨⟨fun _ => ?_, fun _ => rfl⟩,
      fun _ => ⟨rfl, rfl, rfl, ?_, ?_, rfl⟩, fun h => (nomatch h)⟩
    · rcases hc with h | ⟨h1, h2⟩
      · exact Or.inl h
      · exact Or.inr ⟨h1, hexp.mp h2⟩
    · intro s hs; simp [hs]
    · intro hs; simp [hs]
  · rw [try_acquire_lease_neg hc]
    refine ⟨⟨fun h => (nomatch h), fun h => absurd ?_ hc⟩,
      fun h => (nomatch h), fun _ => rfl⟩
    rcases h with h1 | ⟨h1, h2⟩
    · exact Or.inl h1
    · exact Or.inr ⟨h1, hexp.mpr h2⟩

/-- C2 witness: a PENDING row is acquired at time 10. -/
theorem try_acquire_lease_spec_witness :
    ((try_acquire_lease exRowPending "w1" 10).1 = true ↔
      exRowPending.status = RunStatus.PENDING ∨
        (exRowPending.status = RunStatus.RUNNING ∧
          ∃ e, exRowPending.lease_expires_at = some e ∧ e < 10)) ∧
    ((try_acquire_lease exRowPending "w1" 10).1 = true →
      (try_acquire_lease exRowPending "w1" 10).2.status = RunStatus.RUNNING ∧
      (try_acquire_lease exRowPending "w1" 10).2.lease_owner = some "w1" ∧
      (try_acquire_lease exRowPending "w1" 10).2.lease_expires_at =
        some (10 + 60) ∧
      (∀ s, exRowPending.started_at = some s →
        (try_acquire_lease exRowPending "w1" 10).2.started_at = some s) ∧
      (exRowPending.started_at = none →
        (try_acquire_lease exRowPending "w1" 10).2.started_at = some 10) ∧
      (try_acquire_lease exRowPending "w1" 10).2.attempt_count =
        exRowPending.attempt_count + 1) ∧
    ((try_acquire_lease exRowPending "w1" 10).1 = false →
      (try_acquire_lease exRowPending "w1" 10).2 = exRowPending) :=
  try_acquire_lease_spec exRowPending "w1" 10

/-- C5 counterexample: the claim that `renew_lease` succeeds iff
`lease_owner = worker_id` AND `status = RUNNING` is false: on a
SUCCEEDED row whose `lease_owner` column still names the worker,
`renew_lease` returns true (the `UPDATE` of `src/worker/loader.py`
checks only the owner). -/
theorem try_renew_lease_claim_false :
    ¬ (∀ (r : RunRow) (w : String) (now : Nat),
        (try_renew_lease r w now).1 = true ↔
          r.lease_owner = some w ∧ r.status = RunStatus.RUNNING) := by
  intro hclaim
  have h := (hclaim exRowTerminal "w1" 200).mp rfl
  have : RunStatus.SUCCEEDED = RunStatus.RUNNING := h.2
  exact absurd this (by decide)

/-- C5 amended: `renew_lease(run_id, worker_id)` returns true iff
`lease_owner = worker_id` (the run's status is not checked); on success
the only field changed is `lease_expires_at`, set to `now + 60`; on
failure the row is unchanged. -/
theorem try_renew_lease_spec (r : RunRow) (w : String) (now : Nat) :
    ((try_renew_lease r w now).1 = true ↔ r.lease_owner = some w) ∧
    ((try_renew_lease r w now).1 = true →
      (try_renew_lease r w now).2 =
        { r with lease_expires_at := some (now + 60) }) ∧
    ((try_renew_lease r w now).1 = false →
      (try_renew_lease r w now).2 = r) := by
  unfold try_renew_lease
  by_cases hc : r.lease_owner = some w
  · rw [if_pos hc]
    exact ⟨⟨fun _ => hc, fun _ => rfl⟩, fun _ => rfl, fun h => (nomatch h)⟩
  · rw [if_neg hc]
    exact ⟨⟨fun h => (nomatch h), fun h => absurd h hc⟩,
      fun h => (nomatch h), fun _ => rfl⟩

/-- C5 witness for the amended claim: a RUNNING row leased by
`workerB` is renewed by its owner at time 20. -/
theorem try_renew_lease_spec_witness :
    ((try_renew_lease exRowOwnedByB "workerB" 20).1 = true ↔
      exRowOwnedByB.lease_owner = some "workerB") ∧
    ((try_renew_lease exRowOwnedByB "workerB" 20).1 = true →
      (try_renew_lease exRowOwnedByB "workerB" 20).2 =
        { exRowOwnedByB with lease_expires_at := some (20 + 60) }) ∧
    ((try_renew_lease exRowOwnedByB "workerB" 20).1 = false →
      (try_renew_lease exRowOwnedByB "workerB" 20).2 = exRowOwnedByB) :=
  try_renew_lease_spec exRowOwnedByB "workerB" 20

/-- C3: the failure-finalization `UPDATE` of `execute_run` is not
conditional on lease ownership.  Worker `workerA`'s failure write hits
a row currently leased by `workerB` and overwrites its state,
contradicting the claim that the failure is recorded only while the
calling worker still owns the lease. -/
theorem finalize_failure_ignores_lease_owner :
    exRowOwnedByB.lease_owner = some "workerB" ∧
    exRowOwnedByB.lease_owner ≠ some "workerA" ∧
    (finalize_failure exRowOwnedByB "boom" 50).status = RunStatus.FAILED ∧
    (finalize_failure exRowOwnedByB "boom" 50).last_error = some "boom" ∧
    (finalize_failure exRowOwnedByB "boom" 50).finished_at = some 50 := by
  refine ⟨rfl, ?_, rfl, rfl, rfl⟩
  intro h
  have : "workerB" = "workerA" := Option.some.inj h
  exact absurd this (by decide)

/-- C4: terminal status and `finished_at` are not final: on a row
already SUCCEEDED with `finished_at = 100`, the unconditional
failure-finalization `UPDATE` of `execute_run` executes and moves the
row to FAILED with `finished_at = 200`. -/
theorem finalize_failure_breaks_terminal :
    exRowTerminal.status = RunStatus.SUCCEEDED ∧
    exRowTerminal.finished_at = some 100 ∧
    (finalize_failure exRowTerminal "err" 200).status ≠
      exRowTerminal.status ∧
    (finalize_failure exRowTerminal "err" 200).finished_at ≠
      exRowTerminal.finished_at := by
  refine ⟨rfl, rfl, ?_, ?_⟩
  · intro h
    exact absurd h (by decide)
  · intro h
    have : (200 : Nat) = 100 := Option.some.inj h
    omega

/-- C10: a store failure inside `renew_lease` is caught and surfaces as
the boolean `false` — the same value a lost lease produces — so the
heartbeat stops renewing either way, while `acquire_lease` re-raises
the store error to its caller. -/
theorem renew_lease_catches_acquire_lease_raises
    (e : String) (w : String) (now : Nat) :
    (renew_lease (Except.error e) w now) = (false, Except.error e) ∧
    (∀ r : RunRow, r.lease_owner ≠ some w →
      (renew_lease (Except.ok r) w now).1 = false) ∧
    heartbeat_keeps_running (Except.error e) w now = false ∧
    acquire_lease (Except.error e) w now = Except.error e := by
  refine ⟨rfl, ?_, rfl, rfl⟩
  intro r hr
  simp [renew_lease, try_renew_lease, hr]

/-- C10 witness: a database outage during a heartbeat of worker `w1`,
and a lost lease (row leased to `w2`), both yield `false`. -/
theorem renew_lease_catches_witness :
    ((renew_lease (Except.error "db down") "w1" 30) =
      (false, Except.error "db down") ∧
    (∀ r : RunRow, r.lease_owner ≠ some "w1" →
      (renew_lease (Except.ok r) "w1" 30).1 = false) ∧
    heartbeat_keeps_running (Except.error "db down") "w1" 30 = false ∧
    acquire_lease (Except.error "db down") "w1" 30 =
      Except.error "db down") ∧
    (renew_lease (Except.ok exRowOwnedByB) "w1" 30).1 = false :=
  ⟨renew_lease_catches_acquire_lease_raises "db down" "w1" 30,
    (renew_lease_catches_acquire_lease_raises "db down" "w1" 30).2.1
      exRowOwnedByB (by intro h; exact absurd (Option.some.inj h) (by decide))⟩

/-- While a row is RUNNING and its lease is fresh (`now` not past
`lease_expires_at`), `acquire_lease` is denied and leaves the row
unchanged. -/
theorem try_acquire_fresh_denied {r : RunRow} {w : String} {t e : Nat}
    (hs : r.status = RunStatus.RUNNING) (he : r.lease_expires_at = some e)
    (ht : t ≤ e) : try_acquire_lease r w t = (false, r) := by
  apply try_acquire_lease_neg
  intro hc
  rcases hc with h | ⟨_, h2⟩
  · rw [hs] at h
    exact absurd h (by decide)
  · obtain ⟨e2, he2, hlt⟩ := (lease_expired_iff r t).mp h2
    rw [he] at he2
    have : e = e2 := Option.some.inj he2
    omega

/-- A trace of `acquire_lease` attempts all timed at or before a fresh
lease's expiry produces no successful acquisition and leaves the row
unchanged. -/
theorem runAttempts_fresh_none {r : RunRow} {e : Nat}
    (hs : r.status = RunStatus.RUNNING) (he : r.lease_expires_at = some e)
    (l : List (String × Nat)) (hl : ∀ p ∈ l, p.2 ≤ e) :
    runAttempts r l = (r, 0) := by
  induction l with
  | nil => rfl
  | cons p rest ih =>
      obtain ⟨w, t⟩ := p
      have hd : try_acquire_lease r w t = (false, r) :=
        try_acquire_fresh_denied hs he (hl (w, t) (by simp))
      have ih2 := ih (fun q hq => hl q (by simp [hq]))
      simp [runAttempts, hd, ih2]

/-- C1: among any finite set of workers whose atomic `acquire_lease`
attempts against one run all happen inside a single window of length
`LEASE_DURATION_SECONDS` starting at `t0` (so every attempt falls
within the fresh lease window opened by whichever attempt succeeds
first), at most one attempt returns true. -/
theorem at_most_one_lease_winner (r : RunRow) (t0 : Nat)
    (l : List (String × Nat))
    (hl : ∀ p ∈ l, t0 ≤ p.2 ∧ p.2 < t0 + LEASE_DURATION_SECONDS) :
    (runAttempts r l).2 ≤ 1 := by
  induction l generalizing r with
  | nil => simp [runAttempts]
  | cons p rest ih =>
      obtain ⟨w, t⟩ := p
      have hhead := hl (w, t) (by simp)
      by_cases hc : r.status = RunStatus.PENDING ∨
          (r.status = RunStatus.RUNNING ∧ lease_expired r t = true)
      · have hpos := try_acquire_lease_pos (w := w) hc
        have hrest :
            runAttempts
              { r with
                status := RunStatus.RUNNING
                lease_owner := some w
                lease_expires_at := some (t + LEASE_DURATION_SECONDS)
                started_at := some (r.started_at.getD t)
                attempt_count := r.attempt_count + 1 } rest =
            ({ r with
                status := RunStatus.RUNNING
                lease_owner := some w
                lease_expires_at := some (t + LEASE_DURATION_SECONDS)
                started_at := some (r.started_at.getD t)
                attempt_count := r.attempt_count + 1 }, 0) := by
          apply runAttempts_fresh_none rfl rfl
          intro q hq
          have hq2 := hl q (by simp [hq])
          omega
        simp [runAttempts, hpos, hrest]
      · have hneg := try_acquire_lease_neg (w := w) hc
        have htail := ih r (fun q hq => hl q (by simp [hq]))
        simp [runAttempts, hneg]
        exact htail

/-- C1 witness: three workers race for a PENDING run at times 10, 20,
30, all inside the 60-second window opened at time 10; at most one
wins. -/
theorem at_most_one_lease_winner_witness :
    (∀ p ∈ [("w1", (10 : Nat)), ("w2", 20), ("w3", 30)],
      10 ≤ p.2 ∧ p.2 < 10 + LEASE_DURATION_SECONDS) ∧
    (runAttempts exRowPending [("w1", 10), ("w2", 20), ("w3", 30)]).2 ≤ 1 :=
  ⟨by decide,
    at_most_one_lease_winner exRowPending 10
      [("w1", 10), ("w2", 20), ("w3", 30)] (by decide)⟩

/-- C8: when the idempotency key is bound, `POST /runs` returns the
bound run with status 200 and leaves the store unchanged, for any
request parameters whatsoever — the stored run's `payload_hash` is
never compared against the current request's hash, and no run is
created. -/
theorem create_run_key_binding_authoritative
    (params : List (String × Jval)) (k : String) (db : DBState)
    (rid : Nat) (run : RunRow) (conflict : Bool) (newId now : Nat)
    (hk : find_by_key db k = some rid) (hr : get_run db rid = some run) :
    create_run { parameters := params, idemKey := some k } db conflict
      newId now = (ApiResult.ok 200 (serialize_run run), db) := by
  simp [create_run, hk, hr]

/-- C8 witness: key `"K"` is bound to `exRunBound` (whose hash is
`"hash-of-original"`); a request with entirely different parameters
still gets `exRunBound` back with 200 and the store unchanged. -/
theorem create_run_key_binding_witness :
    find_by_key exDbBound "K" = some 3 ∧
    get_run exDbBound 3 = some exRunBound ∧
    create_run { parameters := [("x", Jval.jstr "B")], idemKey := some "K" }
      exDbBound false 7 100 =
      (ApiResult.ok 200 (serialize_run exRunBound), exDbBound) :=
  ⟨rfl, rfl,
    create_run_key_binding_authoritative [("x", Jval.jstr "B")] "K"
      exDbBound 3 exRunBound false 7 100 rfl rfl⟩

/-- C6 counterexample: when the binding insert hits the uniqueness
conflict, `create_run` does not return the winner with 200 — it returns
the 409 error body (`except IntegrityError` branch, lines 95-99 of
`src/api/runs.py`). -/
theorem create_run_conflict_is_409_not_200 :
    create_run { parameters := [("x", Jval.jnum 1)], idemKey := some "K" }
      exDbEmpty true 7 100 =
      (ApiResult.err 409 "Conflict during creation", exDbEmpty) ∧
    ∀ body : SerializedRun,
      create_run { parameters := [("x", Jval.jnum 1)], idemKey := some "K" }
        exDbEmpty true 7 100 ≠ (ApiResult.ok 200 body, exDbEmpty) := by
  refine ⟨rfl, ?_⟩
  intro body h
  have h2 : ApiResult.err 409 "Conflict during creation" =
      ApiResult.ok 200 body :=
    congrArg Prod.fst ((rfl :
      create_run { parameters := [("x", Jval.jnum 1)], idemKey := some "K" }
        exDbEmpty true 7 100 =
      (ApiResult.err 409 "Conflict during creation", exDbEmpty)).symm.trans h)
  exact (nomatch h2)

/-- C6 amended: if a concurrent request bound the same key between this
handler's lookup and its commit, the handler rolls back its insert
(store unchanged) and returns 409 with an error body; it does not
re-read the key and does not return the winner's run. -/
theorem create_run_conflict_rolls_back
    (req : Request) (db : DBState) (newId now : Nat) (k : String)
    (hkey : req.idemKey = some k)
    (hmiss : find_by_key db k = none)
    (hdup : find_active_by_hash db
      (canonicalize_params req.parameters).2 = none) :
    create_run req db true newId now =
      (ApiResult.err 409 "Conflict during creation", db) := by
  simp [create_run, hkey, hmiss, hdup]

/-- C6 witness for the amended claim: a fresh key and an empty store,
with a concurrent binding at commit time. -/
theorem create_run_conflict_rolls_back_witness :
    (({ parameters := [("x", Jval.jnum 1)], idemKey := some "K" } :
        Request).idemKey = some "K") ∧
    find_by_key exDbEmpty "K" = none ∧
    find_active_by_hash exDbEmpty
      (canonicalize_params [("x", Jval.jnum 1)]).2 = none ∧
    create_run { parameters := [("x", Jval.jnum 1)], idemKey := some "K" }
      exDbEmpty true 7 100 =
      (ApiResult.err 409 "Conflict during creation", exDbEmpty) :=
  ⟨rfl, rfl, rfl,
    create_run_conflict_rolls_back
      { parameters := [("x", Jval.jnum 1)], idemKey := some "K" }
      exDbEmpty 7 100 "K" rfl rfl rfl⟩

/-- C7 counterexample: with two active duplicates of hash `"h"` in the
store, the `ORDER BY`-less lookup returns the first row in result
order, which here was created later (`created_at = 10`) than the other
matching row (`created_at = 5`) — not the earliest by `created_at`. -/
theorem find_active_by_hash_not_earliest :
    find_active_by_hash exDbDup "h" = some exRunLate ∧
    exRunEarly ∈ exDbDup.runs ∧
    exRunEarly.payload_hash = "h" ∧
    (exRunEarly.status = RunStatus.PENDING ∨
      exRunEarly.status = RunStatus.RUNNING) ∧
    exRunEarly.created_at < exRunLate.created_at := by
  refine ⟨rfl, ?_, rfl, Or.inl rfl, by decide⟩
  simp [exDbDup]

/-- C7 amended: the active-duplicate lookup returns a run matching the
hash with status PENDING or RUNNING whenever one exists — the first in
the store's (unconstrained) result order — but not necessarily the one
with the earliest `created_at`. -/
theorem find_active_by_hash_spec (db : DBState) (hsh : String) :
    (∀ r, find_active_by_hash db hsh = some r →
      r ∈ db.runs ∧ r.payload_hash = hsh ∧
        (r.status = RunStatus.PENDING ∨ r.status = RunStatus.RUNNING)) ∧
    ((∃ r ∈ db.runs, r.payload_hash = hsh ∧
        (r.status = RunStatus.PENDING ∨ r.status = RunStatus.RUNNING)) →
      (find_active_by_hash db hsh).isSome = true) := by
  constructor
  · intro r hr
    have hmem := List.mem_of_find?_eq_some hr
    have hp := List.find?_some hr
    simp only [Bool.and_eq_true, decide_eq_true_eq] at hp
    exact ⟨hmem, hp.1, hp.2⟩
  · rintro ⟨r, hmem, h1, h2⟩
    unfold find_active_by_hash
    rw [List.find?_isSome]
    refine ⟨r, hmem, ?_⟩
    simp [h1, h2]

/-- C7 witness for the amended claim: applied to the duplicate store. -/
theorem find_active_by_hash_spec_witness :
    ((∀ r, find_active_by_hash exDbDup "h" = some r →
      r ∈ exDbDup.runs ∧ r.payload_hash = "h" ∧
        (r.status = RunStatus.PENDING ∨ r.status = RunStatus.RUNNING)) ∧
    ((∃ r ∈ exDbDup.runs, r.payload_hash = "h" ∧
        (r.status = RunStatus.PENDING ∨ r.status = RunStatus.RUNNING)) →
      (find_active_by_hash exDbDup "h").isSome = true)) :=
  find_active_by_hash_spec exDbDup "h"

/-- Characters with equal code points are equal. -/
theorem char_toNat_inj {a b : Char} (h : a.toNat = b.toNat) : a = b := by
  have h2 := congrArg Char.ofNat h
  rwa [Char.ofNat_toNat, Char.ofNat_toNat] at h2

/-- The lexicographic code-point order is total. -/
theorem charListLE_total :
    ∀ as bs, charListLE as bs = true ∨ charListLE bs as = true
  | [], _ => Or.inl rfl
  | _ :: _, [] => Or.inr rfl
  | a :: as, b :: bs => by
      by_cases h1 : a.toNat < b.toNat
      · left; simp [charListLE, h1]
      · by_cases h2 : b.toNat < a.toNat
        · right; simp [charListLE, h2]
        · rcases charListLE_total as bs with h | h
          · left; simp [charListLE, h1, h2, h]
          · right; simp [charListLE, h1, h2, h]

/-- The lexicographic code-point order is transitive. -/
theorem charListLE_trans :
    ∀ as bs cs, charListLE as bs = true → charListLE bs cs = true →
      charListLE as cs = true
  | [], _, _, _, _ => rfl
  | _ :: _, [], _, h1, _ => (nomatch h1)
  | _ :: _, _ :: _, [], _, h2 => (nomatch h2)
  | a :: as, b :: bs, c :: cs, h1, h2 => by
      simp only [charListLE] at h1 h2 ⊢
      split at h1
      next hab =>
        split at h2
        next hbc => rw [if_pos (by omega)]
        next hbc =>
          split at h2
          next hcb => exact (nomatch h2)
          next hcb => rw [if_pos (by omega)]
      next hab =>
        split at h1
        next hba => exact (nomatch h1)
        next hba =>
          split at h2
          next hbc => rw [if_pos (by omega)]
          next hbc =>
            split at h2
            next hcb => exact (nomatch h2)
            next hcb =>
              rw [if_neg (by omega), if_neg (by omega)]
              exact charListLE_trans as bs cs h1 h2

/-- The lexicographic code-point order is antisymmetric. -/
theorem charListLE_antisymm :
    ∀ as bs, charListLE as bs = true → charListLE bs as = true → as = bs
  | [], [], _, _ => rfl
  | [], _ :: _, _, h2 => (nomatch h2)
  | _ :: _, [], h1, _ => (nomatch h1)
  | a :: as, b :: bs, h1, h2 => by
      simp only [charListLE] at h1 h2
      split at h1
      next hab =>
        rw [if_neg (by omega), if_pos (by omega)] at h2
        exact (nomatch h2)
      next hab =>
        split at h1
        next hba => exact (nomatch h1)
        next hba =>
          rw [if_neg (by omega), if_neg (by omega)] at h2
          have heq : a = b := char_toNat_inj (by omega)
          have htail := charListLE_antisymm as bs h1 h2
          rw [heq, htail]

/-- Python string order is antisymmetric. -/
theorem strLE_antisymm {a b : String} (h1 : strLE a b) (h2 : strLE b a) :
    a = b := by
  have h := charListLE_antisymm a.data b.data h1 h2
  exact congrArg String.mk h

/-- An entry list sorted by key whose keys are pairwise distinct is
sorted by the strict key order. -/
theorem sorted_entryLE_strict {l : List (String × Jval)}
    (hs : List.Sorted entryLE l) (hn : (l.map Prod.fst).Nodup) :
    List.Sorted (fun p q : String × Jval => entryLE p q ∧ p.1 ≠ q.1) l := by
  have hne : l.Pairwise (fun p q => p.1 ≠ q.1) := List.pairwise_map.mp hn
  exact hs.and hne

/-- Sorting two permuted entry lists with pairwise-distinct keys by key
yields the same list. -/
theorem insertionSort_eq_of_perm {l1 l2 : List (String × Jval)}
    (hp : List.Perm l1 l2) (hn : (l1.map Prod.fst).Nodup) :
    List.insertionSort entryLE l1 = List.insertionSort entryLE l2 := by
  haveI : IsTotal (String × Jval) entryLE :=
    ⟨fun p q => charListLE_total p.1.data q.1.data⟩
  haveI : IsTrans (String × Jval) entryLE :=
    ⟨fun p q r h1 h2 => charListLE_trans p.1.data q.1.data r.1.data h1 h2⟩
  haveI : IsAntisymm (String × Jval)
      (fun p q : String × Jval => entryLE p q ∧ p.1 ≠ q.1) :=
    ⟨fun p q h1 h2 => absurd (strLE_antisymm h1.1 h2.1) h1.2⟩
  have hperm1 := List.perm_insertionSort entryLE l1
  have hperm2 := List.perm_insertionSort entryLE l2
  have hn2 : (l2.map Prod.fst).Nodup := ((hp.map Prod.fst).nodup_iff).mp hn
  have hns1 : ((List.insertionSort entryLE l1).map Prod.fst).Nodup :=
    ((hperm1.map Prod.fst).nodup_iff).mpr hn
  have hns2 : ((List.insertionSort entryLE l2).map Prod.fst).Nodup :=
    ((hperm2.map Prod.fst).nodup_iff).mpr hn2
  exact List.eq_of_perm_of_sorted
    ((hperm1.trans hp).trans hperm2.symm)
    (sorted_entryLE_strict (List.sorted_insertionSort entryLE l1) hns1)
    (sorted_entryLE_strict (List.sorted_insertionSort entryLE l2) hns2)

/-- `sortJEntries` maps `sortJ` over the entry values. -/
theorem sortJEntries_eq_map (l : List (String × Jval)) :
    sortJEntries l = l.map (fun p => (p.1, sortJ p.2)) := by
  induction l with
  | nil => rfl
  | cons p t ih =>
      obtain ⟨k, v⟩ := p
      simp [sortJEntries, ih]

/-- `sortJEntries` preserves the key sequence. -/
theorem sortJEntries_keys (l : List (String × Jval)) :
    (sortJEntries l).map Prod.fst = l.map Prod.fst := by
  rw [sortJEntries_eq_map, List.map_map]
  rfl

/-- Entry lists related pointwise by `KeyPermEntries` carry the same
key sequence. -/
theorem keyPermEntries_keys :
    ∀ (es gs : List (String × Jval)), KeyPermEntries es gs →
      es.map Prod.fst = gs.map Prod.fst
  | [], [], _ => rfl
  | [], _ :: _, hp => (hp : False).elim
  | _ :: _, [], hp => (hp : False).elim
  | (k, v) :: es, (k2, v2) :: gs, hp => by
      have hp2 : k = k2 ∧ KeyPerm v v2 ∧ KeyPermEntries es gs := hp
      have htail := keyPermEntries_keys es gs hp2.2.2
      simp [hp2.1, htail]

mutual

/-- Recursively reordering object keys does not change the recursively
key-sorted value. -/
theorem sortJ_congr : ∀ (j j' : Jval), NodupKeys j → KeyPerm j j' →
    sortJ j = sortJ j'
  | Jval.jnull, j', _, hp => congrArg sortJ hp
  | Jval.jbool _, j', _, hp => congrArg sortJ hp
  | Jval.jnum _, j', _, hp => congrArg sortJ hp
  | Jval.jstr _, j', _, hp => congrArg sortJ hp
  | Jval.jarr xs, Jval.jarr ys, hn, hp => by
      have h := sortJList_congr xs ys hn hp
      simp only [sortJ]
      rw [h]
  | Jval.jarr _, Jval.jnull, _, hp => congrArg sortJ hp
  | Jval.jarr _, Jval.jbool _, _, hp => congrArg sortJ hp
  | Jval.jarr _, Jval.jnum _, _, hp => congrArg sortJ hp
  | Jval.jarr _, Jval.jstr _, _, hp => congrArg sortJ hp
  | Jval.jarr _, Jval.jobj _, _, hp => congrArg sortJ hp
  | Jval.jobj es, Jval.jobj fs, hn, hp => by
      have hn2 : (es.map Prod.fst).Nodup ∧ NodupKeysEntries es := hn
      have hp2 : ∃ gs, KeyPermEntries es gs ∧ List.Perm gs fs := hp
      obtain ⟨gs, hpe, hperm⟩ := hp2
      have h1 : sortJEntries es = sortJEntries gs :=
        sortJEntries_congr es gs hn2.2 hpe
      have h2 : List.Perm (sortJEntries gs) (sortJEntries fs) := by
        rw [sortJEntries_eq_map, sortJEntries_eq_map]
        exact hperm.map _
      have h3 : List.Perm (sortJEntries es) (sortJEntries fs) := h1 ▸ h2
      have hnodup : ((sortJEntries es).map Prod.fst).Nodup := by
        rw [sortJEntries_keys]
        exact hn2.1
      have h4 := insertionSort_eq_of_perm h3 hnodup
      simp only [sortJ]
      rw [h4]
  | Jval.jobj _, Jval.jnull, _, hp => congrArg sortJ hp
  | Jval.jobj _, Jval.jbool _, _, hp => congrArg sortJ hp
  | Jval.jobj _, Jval.jnum _, _, hp => congrArg sortJ hp
  | Jval.jobj _, Jval.jstr _, _, hp => congrArg sortJ hp
  | Jval.jobj _, Jval.jarr _, _, hp => congrArg sortJ hp

/-- Array version of `sortJ_congr`. -/
theorem sortJList_congr : ∀ (xs ys : List Jval), NodupKeysList xs →
    KeyPermList xs ys → sortJList xs = sortJList ys
  | [], [], _, _ => rfl
  | [], _ :: _, _, hp => (hp : False).elim
  | _ :: _, [], _, hp => (hp : False).elim
  | x :: xs, y :: ys, hn, hp => by
      have hn2 : NodupKeys x ∧ NodupKeysList xs := hn
      have hp2 : KeyPerm x y ∧ KeyPermList xs ys := hp
      have h1 := sortJ_congr x y hn2.1 hp2.1
      have h2 := sortJList_congr xs ys hn2.2 hp2.2
      simp only [sortJList]
      rw [h1, h2]

/-- Entry-list version of `sortJ_congr` (keys fixed pointwise). -/
theorem sortJEntries_congr : ∀ (es gs : List (String × Jval)),
    NodupKeysEntries es → KeyPermEntries es gs →
    sortJEntries es = sortJEntries gs
  | [], [], _, _ => rfl
  | [], _ :: _, _, hp => (hp : False).elim
  | _ :: _, [], _, hp => (hp : False).elim
  | (k, v) :: es, (k2, v2) :: gs, hn, hp => by
      have hn2 : NodupKeys v ∧ NodupKeysEntries es := hn
      have hp2 : k = k2 ∧ KeyPerm v v2 ∧ KeyPermEntries es gs := hp
      have h1 := sortJ_congr v v2 hn2.1 hp2.2.1
      have h2 := sortJEntries_congr es gs hn2.2 hp2.2.2
      simp only [sortJEntries]
      rw [hp2.1, h1, h2]

end

/-- C9: for any mapping with distinct keys (recursively, as Python
dicts are), presenting its keys — and, recursively, the keys of any
nested mapping — in any other order yields a byte-identical canonical
JSON string and an identical SHA-256 hex hash from
`canonicalize_params`; the output is a function of the value alone. -/
theorem canonicalize_params_key_order_invariant
    (m m' : List (String × Jval))
    (hn : NodupKeys (Jval.jobj m))
    (hp : KeyPerm (Jval.jobj m) (Jval.jobj m')) :
    (canonicalize_params m).1 = (canonicalize_params m').1 ∧
    (canonicalize_params m).2 = (canonicalize_params m').2 := by
  have h := sortJ_congr (Jval.jobj m) (Jval.jobj m') hn hp
  unfold canonicalize_params
  rw [h]
  exact ⟨rfl, rfl⟩

/-- C9 witness: the two presentations of the dict from the repository's
own unit test produce the same canonical string and hash. -/
theorem canonicalize_params_key_order_invariant_witness :
    NodupKeys (Jval.jobj [("b", Jval.jnum 2), ("a", Jval.jnum 1)]) ∧
    KeyPerm (Jval.jobj [("b", Jval.jnum 2), ("a", Jval.jnum 1)])
      (Jval.jobj [("a", Jval.jnum 1), ("b", Jval.jnum 2)]) ∧
    ((canonicalize_params [("b", Jval.jnum 2), ("a", Jval.jnum 1)]).1 =
      (canonicalize_params [("a", Jval.jnum 1), ("b", Jval.jnum 2)]).1 ∧
    (canonicalize_params [("b", Jval.jnum 2), ("a", Jval.jnum 1)]).2 =
      (canonicalize_params [("a", Jval.jnum 1), ("b", Jval.jnum 2)]).2) :=
  ⟨⟨by decide, trivial, trivial, trivial⟩,
    ⟨[("b", Jval.jnum 2), ("a", Jval.jnum 1)],
      ⟨rfl, rfl, rfl, rfl, trivial⟩,
      List.Perm.swap ("a", Jval.jnum 1) ("b", Jval.jnum 2) []⟩,
    canonicalize_params_key_order_invariant
      [("b", Jval.jnum 2), ("a", Jval.jnum 1)]
      [("a", Jval.jnum 1), ("b", Jval.jnum 2)]
      ⟨by decide, trivial, trivial, trivial⟩
      ⟨[("b", Jval.jnum 2), ("a", Jval.jnum 1)],
        ⟨rfl, rfl, rfl, rfl, trivial⟩,
        List.Perm.swap ("a", Jval.jnum 1) ("b", Jval.jnum 2) []⟩⟩

end Orchestration
